import Mathlib

/-!
Shallow embedding of the `nml_bag` package (files `nml_bag/message.py` and
`nml_bag/reader.py`).

The package wraps an external ROS2 middleware: the sequential bag cursor
(`rosbag2_py.SequentialReader`), the deserializer
(`rclpy.serialization.deserialize_message`), the flattener
(`rosidl_runtime_py.message_to_ordereddict`) and the dynamic type loader
(`importlib.import_module` + `getattr`).  Those collaborators are modelled as
explicit parameters (`RosEnv`) and as a concrete bag state (`Bag`,
`ReaderState`): the bag holds the stored topic metadata and the stored entries
in write order, and the state holds the cursor position, the optional topic
filter, the `_records` cache attribute, and instrumentation counters for the
calls made to the external cursor (`readCalls` counts `has_next`/`read_next`
calls, `metadataQueries` counts `get_all_topics_and_types` calls).
-/

namespace NmlBag

/-- Field values stored in a flattened message mapping. -/
inductive Value where
  | vstr : String → Value
  | vint : Nat → Value
  deriving DecidableEq, Repr

/-- A serialized message payload (raw bytes). -/
abbrev Payload := List Nat

/-- The ordered field mapping produced by `message_to_ordereddict`. -/
abbrev FieldMap := List (String × Value)

/-- A record yielded by `Reader.__next__`: an ordered mapping. -/
abbrev Record := List (String × Value)

/-- Errors raised by the functions of `message.py`:
`specificationFormatError` is the unpacking failure of
`specification.split('/')` into exactly three names (a `ValueError` in
Python, named `SpecificationFormatError` in the design taxonomy);
`typeResolutionError` is a failed dynamic import or attribute lookup;
`deserializationError` is a failure of the external `deserialize_message`. -/
inductive MessageError where
  | specificationFormatError
  | typeResolutionError
  | deserializationError
  deriving DecidableEq, Repr

/-- The `message_type` argument of `deserialize`/`to_dict`: either a string
specification (the `isinstance(message_type, str)` branch) or an already
resolved message type descriptor. -/
inductive MsgType (Desc : Type) where
  | str : String → MsgType Desc
  | descriptor : Desc → MsgType Desc

/-- Python `str.split(sep)` for a one-character separator, on the
character list: splits at every occurrence of the separator and keeps
empty components (`"a//b".split('/') == ['a', '', 'b']`,
`"".split('/') == ['']`).  The result is always non-empty; the `[]`
branch is unreachable. -/
def pySplitAux (sep : Char) : List Char → List (List Char)
  | [] => [[]]
  | c :: rest =>
    match pySplitAux sep rest with
    | [] => [[]]
    | g :: gs => if c = sep then [] :: g :: gs else (c :: g) :: gs

/-- Python `str.split(sep)` for a one-character separator. -/
def pySplit (sep : Char) (s : String) : List String :=
  (pySplitAux sep s.toList).map fun g => String.mk g

/-- `message.string_to_message_type` (message.py lines 33-68): split the
specification on `/`; the unpacking into `(package_name, module_name,
message_name)` fails unless the split has exactly three components; then
dynamically load the named type.  The loading step
(`importlib.import_module` followed by `getattr`) is the external
collaborator `load`. -/
def string_to_message_type {Desc : Type}
    (load : String → String → String → Option Desc)
    (specification : String) : Except MessageError Desc :=
  match pySplit '/' specification with
  | [package_name, module_name, message_name] =>
    match load package_name module_name message_name with
    | some message_type => .ok message_type
    | none => .error .typeResolutionError
  | _ => .error .specificationFormatError

/-- `message.deserialize` (message.py lines 71-93): resolve a string
specification through `string_to_message_type`, use a descriptor as given,
then call the external `deserialize_message` on the data. -/
def deserialize {Desc Msg : Type}
    (load : String → String → String → Option Desc)
    (deserialize_message : Payload → Desc → Option Msg)
    (data : Payload) (message_type : MsgType Desc) : Except MessageError Msg :=
  let resolved : Except MessageError Desc :=
    match message_type with
    | .str s => string_to_message_type load s
    | .descriptor d => .ok d
  match resolved with
  | .error e => .error e
  | .ok d =>
    match deserialize_message data d with
    | some m => .ok m
    | none => .error .deserializationError

/-- `message.to_dict` (message.py lines 97-119): deserialize, then flatten
the message with the external `message_to_ordereddict`. -/
def to_dict {Desc Msg : Type}
    (load : String → String → String → Option Desc)
    (deserialize_message : Payload → Desc → Option Msg)
    (message_to_ordereddict : Msg → FieldMap)
    (data : Payload) (message_type : MsgType Desc) :
    Except MessageError FieldMap :=
  (deserialize load deserialize_message data message_type).map
    message_to_ordereddict

/-- One element of the result of `get_all_topics_and_types`: a topic name
and its message type name (as in `rosbag2_py.TopicMetadata`). -/
structure TopicMetadata where
  name : String
  type : String
  deriving DecidableEq, Repr

/-- One stored bag entry, as yielded by the cursor primitive `read_next`:
`(topic, data, time)` with the timestamp in nanoseconds. -/
structure Entry where
  topic : String
  data : Payload
  time : Nat
  deriving DecidableEq, Repr

/-- The content of an open bag file: the topic metadata reported by the
storage backend, and the stored entries in original write order. -/
structure Bag where
  topicData : List TopicMetadata
  entries : List Entry
  deriving DecidableEq, Repr

/-- The observable state of an open `Reader`: the open bag, the optional
topic filter installed by `set_filter` (`none` when no filter was ever
installed), the cursor position, the `_records` cache attribute (`none`
models the attribute being absent), and two instrumentation counters for
calls made to the external cursor: `metadataQueries` counts
`get_all_topics_and_types` calls and `readCalls` counts
`has_next`/`read_next` calls. -/
structure ReaderState where
  bag : Bag
  filter : Option (List String)
  pos : Nat
  records_cache : Option (List Record)
  metadataQueries : Nat
  readCalls : Nat
  deriving DecidableEq, Repr

/-- The entry sequence the cursor traverses: all stored entries when no
filter is installed, otherwise only the entries whose topic is in the
filter list (the semantics of `rosbag2_py.StorageFilter`). -/
def filteredEntries (s : ReaderState) : List Entry :=
  match s.filter with
  | none => s.bag.entries
  | some topics => s.bag.entries.filter (fun e => topics.contains e.topic)

/-- Cursor primitive `has_next`: reports whether entries remain, and is
counted as one query of the underlying resource. -/
def has_next (s : ReaderState) : Bool × ReaderState :=
  (decide (s.pos < (filteredEntries s).length),
   { s with readCalls := s.readCalls + 1 })

/-- Cursor primitive `read_next`: yields the entry at the cursor position
as a `(topic, data, time)` triple and advances the cursor.  `none` models
the undefined behaviour of reading past the end (never reached by
`Reader.__next__`, which checks `has_next` first). -/
def read_next (s : ReaderState) :
    Option (String × Payload × Nat) × ReaderState :=
  match (filteredEntries s)[s.pos]? with
  | some e =>
    (some (e.topic, e.data, e.time),
     { s with pos := s.pos + 1, readCalls := s.readCalls + 1 })
  | none => (none, { s with readCalls := s.readCalls + 1 })

/-- Cursor primitive `get_all_topics_and_types`: returns the stored topic
metadata and is counted as one metadata query. -/
def get_all_topics_and_types (s : ReaderState) :
    List TopicMetadata × ReaderState :=
  (s.bag.topicData, { s with metadataQueries := s.metadataQueries + 1 })

/-- The association list underlying the dict comprehension
`{metadata.name: metadata.type for metadata in topic_data}`. -/
def typeMapList (topic_data : List TopicMetadata) : List (String × String) :=
  topic_data.map (fun metadata => (metadata.name, metadata.type))

/-- Lookup in an association list with Python `dict` semantics: a later
binding of the same key overwrites an earlier one. -/
def dictLookup (l : List (String × String)) (k : String) : Option String :=
  (l.reverse.find? (fun p => p.1 == k)).map Prod.snd

/-- Property `Reader.type_map` (reader.py lines 186-200): queries
`get_all_topics_and_types` on this access and builds the name-to-type
mapping from the result. -/
def type_map (s : ReaderState) : List (String × String) × ReaderState :=
  let p := get_all_topics_and_types s
  (typeMapList p.1, p.2)

/-- Property `Reader.topics` (reader.py lines 177-184): the keys of
`type_map`. -/
def Reader.topics (s : ReaderState) : List String × ReaderState :=
  let p := type_map s
  (p.1.map Prod.fst, p.2)

/-- The type name `type_map[topic]` resolves to, as a pure function of the
bag content. -/
def topicType (bag : Bag) (topic : String) : Option String :=
  dictLookup (typeMapList bag.topicData) topic

/-- The state right after `Reader.open` succeeds on a bag file: no filter,
cursor at the start, `_records` attribute absent, counters zeroed. -/
def Reader.openState (bag : Bag) : ReaderState :=
  { bag := bag, filter := none, pos := 0, records_cache := none,
    metadataQueries := 0, readCalls := 0 }

/-- `Reader.set_filter` (reader.py lines 219-227): installs the topic
allow-list by handing `StorageFilter(topics)` to the cursor. -/
def Reader.set_filter (s : ReaderState) (topics : List String) : ReaderState :=
  { s with filter := some topics }

/-- `Reader.__init__` (reader.py lines 142-145) after a successful open:
`if topics: self.set_filter(topics)` — the filter is installed only when
the topic list is non-empty (a Python empty list is falsy). -/
def Reader.init (bag : Bag) (topics : List String) : ReaderState :=
  let s := Reader.openState bag
  if topics.isEmpty then s else Reader.set_filter s topics

/-- The external collaborators used by one `Reader`: the dynamic type
loader (`importlib.import_module` + `getattr`), the deserializer
(`rclpy.serialization.deserialize_message`, `none` modelling a
deserialization failure), and the flattener
(`rosidl_runtime_py.message_to_ordereddict`). -/
structure RosEnv (Desc Msg : Type) where
  load : String → String → String → Option Desc
  deserialize_message : Payload → Desc → Option Msg
  message_to_ordereddict : Msg → FieldMap

/-- The ways one call of `Reader.__next__` can fail after `has_next`
reported a remaining entry: `topicResolutionError` is the `KeyError` of
`self.type_map[topic]`; `messageError` wraps a failure inside
`message.to_dict`; `assertionError` is the reserved-key collision
assertion; `cursorError` marks the unreachable failure of `read_next`
right after `has_next` succeeded. -/
inductive StepError where
  | topicResolutionError (topic : String)
  | messageError (e : MessageError)
  | assertionError
  | cursorError
  deriving DecidableEq, Repr

/-- The outcome of one call of `Reader.__next__`: `StopIteration`, a
propagated error, or a yielded record. -/
inductive StepResult where
  | stopIteration
  | error (e : StepError)
  | ok (r : Record)
  deriving DecidableEq, Repr

/-- `Reader.__next__` (reader.py lines 232-267): raise `StopIteration`
when `has_next` is false; otherwise `read_next` the `(topic, data, time)`
triple, look the topic up in the freshly computed `type_map`, convert the
payload with `message.to_dict`, assert that none of the reserved keys
`topic`, `time_ns`, `type` occurs among the message fields, and build the
record with the three reserved keys first and the message fields merged
behind them. -/
def Reader.next {Desc Msg : Type} (env : RosEnv Desc Msg)
    (s : ReaderState) : StepResult × ReaderState :=
  let p1 := has_next s
  if p1.1 = false then (.stopIteration, p1.2) else
  let p2 := read_next p1.2
  match p2.1 with
  | none => (.error .cursorError, p2.2)
  | some (topic, data, time) =>
    let p3 := type_map p2.2
    match dictLookup p3.1 topic with
    | none => (.error (.topicResolutionError topic), p3.2)
    | some message_type =>
      match to_dict env.load env.deserialize_message
          env.message_to_ordereddict data (.str message_type) with
      | .error e => (.error (.messageError e), p3.2)
      | .ok data_fields =>
        if data_fields.any (fun kv => kv.1 == "topic") then
          (.error .assertionError, p3.2)
        else if data_fields.any (fun kv => kv.1 == "time_ns") then
          (.error .assertionError, p3.2)
        else if data_fields.any (fun kv => kv.1 == "type") then
          (.error .assertionError, p3.2)
        else
          (.ok (("topic", .vstr topic) :: ("time_ns", .vint time) ::
                ("type", .vstr message_type) :: data_fields), p3.2)

/-- Fuel-indexed drain of the iterator, modelling `list(self)`:
repeatedly call `Reader.next` and collect the yielded records until
`StopIteration`; an error propagates out of the drain.  The fuel is only
a termination device: `Reader.list` supplies enough fuel that it is
never exhausted. -/
def drainAux {Desc Msg : Type} (env : RosEnv Desc Msg) :
    Nat → ReaderState → List Record →
    Except StepError (List Record) × ReaderState
  | 0, s, acc => (.ok acc.reverse, s)
  | Nat.succ fuel, s, acc =>
    match Reader.next env s with
    | (.stopIteration, s1) => (.ok acc.reverse, s1)
    | (.error e, s1) => (.error e, s1)
    | (.ok r, s1) => drainAux env fuel s1 (r :: acc)

/-- `list(self)`: drain the iterator to a list of records. -/
def Reader.list {Desc Msg : Type} (env : RosEnv Desc Msg)
    (s : ReaderState) : Except StepError (List Record) × ReaderState :=
  drainAux env ((filteredEntries s).length + 1) s []

/-- Property `Reader.records` (reader.py lines 202-217):
`if not getattr(self, '_records', None): self._records = list(self)`.
The drain runs when the `_records` attribute is absent or holds an empty
(falsy) list; a non-empty cached list is returned as is. -/
def Reader.records {Desc Msg : Type} (env : RosEnv Desc Msg)
    (s : ReaderState) : Except StepError (List Record) × ReaderState :=
  match s.records_cache with
  | some (r :: rs) => (.ok (r :: rs), s)
  | _ =>
    match Reader.list env s with
    | (.ok l, s1) => (.ok l, { s1 with records_cache := some l })
    | (.error e, s1) => (.error e, s1)

/-- Whether a flattened field mapping avoids all three reserved record
keys, i.e. whether the three assertions of `Reader.__next__` pass. -/
def reservedFree (fields : FieldMap) : Bool :=
  !(fields.any (fun kv => kv.1 == "topic") ||
    fields.any (fun kv => kv.1 == "time_ns") ||
    fields.any (fun kv => kv.1 == "type"))

/-- An entry is well formed for iteration: its topic resolves in the type
map, its payload converts through `message.to_dict`, and the resulting
fields avoid the reserved keys. -/
def entryOK {Desc Msg : Type} (env : RosEnv Desc Msg) (bag : Bag)
    (e : Entry) : Bool :=
  match topicType bag e.topic with
  | none => false
  | some t =>
    match to_dict env.load env.deserialize_message
        env.message_to_ordereddict e.data (.str t) with
    | .error _ => false
    | .ok fields => reservedFree fields

/-- The record `Reader.__next__` builds for a well-formed entry (junk on
an ill-formed one, where no record is ever yielded). -/
def mkRecord {Desc Msg : Type} (env : RosEnv Desc Msg) (bag : Bag)
    (e : Entry) : Record :=
  match topicType bag e.topic with
  | none => []
  | some t =>
    match to_dict env.load env.deserialize_message
        env.message_to_ordereddict e.data (.str t) with
    | .error _ => []
    | .ok fields =>
      ("topic", .vstr e.topic) :: ("time_ns", .vint e.time) ::
      ("type", .vstr t) :: fields

/-- Python `dict` key access on a record (keys are unique in a `dict`,
so the first occurrence decides). -/
def recordLookup (r : Record) (k : String) : Option Value :=
  (r.find? (fun p => p.1 == k)).map Prod.snd

/-- Iterate `Reader.__next__` `n` times, keeping only the state (used to
express repeated reads after exhaustion). -/
def skipNext {Desc Msg : Type} (env : RosEnv Desc Msg) :
    Nat → ReaderState → ReaderState
  | 0, s => s
  | Nat.succ n, s => skipNext env n (Reader.next env s).2

/-- A concrete environment used to evaluate the model on concrete inputs:
the loader knows exactly the type `example_interfaces/msg/String`, the
deserializer always succeeds, and the flattener produces the single field
`data` (as in the doctest of reader.py). -/
def sampleEnv : RosEnv Unit Unit where
  load := fun p m n =>
    if p == "example_interfaces" && m == "msg" && n == "String" then
      some ()
    else none
  deserialize_message := fun _ _ => some ()
  message_to_ordereddict := fun _ => [("data", Value.vstr "Hello World!")]

/-- A concrete two-entry bag mirroring the doctest of reader.py. -/
def sampleBag : Bag where
  topicData := [{ name := "test_topic",
                  type := "example_interfaces/msg/String" }]
  entries := [{ topic := "test_topic", data := [1, 2], time := 100 },
              { topic := "test_topic", data := [3, 4], time := 200 }]

/-- A bag with no topics and no entries. -/
def emptyBag : Bag where
  topicData := []
  entries := []

/-- A bag whose single entry has a topic missing from the topic
metadata, so that the `type_map[topic]` lookup fails. -/
def mysteryBag : Bag where
  topicData := []
  entries := [{ topic := "mystery", data := [], time := 7 }]

/-- An environment whose flattener emits a field named `topic`, colliding
with a reserved record key. -/
def collidingEnv : RosEnv Unit Unit where
  load := fun _ _ _ => some ()
  deserialize_message := fun _ _ => some ()
  message_to_ordereddict := fun _ => [("topic", Value.vstr "oops")]

/-- The state left behind by every branch of `Reader.__next__` that runs
past `read_next`: cursor advanced by one, one metadata query added, two
cursor calls added. -/
def advanced (s : ReaderState) : ReaderState :=
  { s with pos := s.pos + 1,
           metadataQueries := s.metadataQueries + 1,
           readCalls := s.readCalls + 2 }

/-- The two records the sample bag drains to. -/
def sampleRecords : List Record :=
  [[("topic", Value.vstr "test_topic"), ("time_ns", Value.vint 100),
    ("type", Value.vstr "example_interfaces/msg/String"),
    ("data", Value.vstr "Hello World!")],
   [("topic", Value.vstr "test_topic"), ("time_ns", Value.vint 200),
    ("type", Value.vstr "example_interfaces/msg/String"),
    ("data", Value.vstr "Hello World!")]]

/-- `filteredEntries` ignores the `readCalls` counter. -/
@[simp] lemma filteredEntries_update_readCalls (s : ReaderState) (n : Nat) :
    filteredEntries { s with readCalls := n } = filteredEntries s := rfl

/-- `filteredEntries` ignores the cursor position and the counters. -/
@[simp] lemma filteredEntries_update_pos (s : ReaderState) (p n : Nat) :
    filteredEntries { s with pos := p, readCalls := n } =
      filteredEntries s := rfl

/-- `filteredEntries` ignores the `_records` cache. -/
@[simp] lemma filteredEntries_update_cache (s : ReaderState)
    (c : Option (List Record)) :
    filteredEntries { s with records_cache := c } = filteredEntries s := rfl

/-- When the cursor is exhausted, `Reader.__next__` raises
`StopIteration` and touches nothing but the `has_next` call counter. -/
lemma next_of_not_hasNext {Desc Msg : Type} (env : RosEnv Desc Msg)
    (s : ReaderState) (h : (has_next s).1 = false) :
    Reader.next env s =
      (.stopIteration, { s with readCalls := s.readCalls + 1 }) := by
  simp only [has_next] at h
  simp [Reader.next, has_next, h]

/-- `filteredEntries` ignores the cursor position and both counters. -/
@[simp] lemma filteredEntries_update_pos_counters (s : ReaderState)
    (p m n : Nat) :
    filteredEntries { s with pos := p, metadataQueries := m,
                             readCalls := n } = filteredEntries s := rfl

/-- On a well-formed entry at the cursor position, `Reader.__next__`
yields exactly `mkRecord` of that entry, advances the cursor by one, and
performs one metadata query and two cursor calls. -/
lemma next_of_entryOK {Desc Msg : Type} (env : RosEnv Desc Msg)
    (s : ReaderState) (e : Entry)
    (he : (filteredEntries s)[s.pos]? = some e)
    (hok : entryOK env s.bag e = true) :
    Reader.next env s =
      (.ok (mkRecord env s.bag e),
       { s with pos := s.pos + 1,
                metadataQueries := s.metadataQueries + 1,
                readCalls := s.readCalls + 2 }) := by
  have hlt : s.pos < (filteredEntries s).length := by
    by_contra hge
    rw [List.getElem?_eq_none (Nat.le_of_not_lt hge)] at he
    exact Option.noConfusion he
  unfold entryOK at hok
  cases ht : topicType s.bag e.topic with
  | none => rw [ht] at hok; exact absurd hok (by simp)
  | some t =>
    simp only [ht] at hok
    cases hd : to_dict env.load env.deserialize_message
        env.message_to_ordereddict e.data (.str t) with
    | error err => simp only [hd] at hok; exact absurd hok (by simp)
    | ok fields =>
      simp only [hd] at hok
      have hA : fields.any (fun kv => kv.1 == "topic") = false := by
        cases hA : fields.any (fun kv => kv.1 == "topic") with
        | false => rfl
        | true => rw [reservedFree, hA] at hok; simp at hok
      have hB : fields.any (fun kv => kv.1 == "time_ns") = false := by
        cases hB : fields.any (fun kv => kv.1 == "time_ns") with
        | false => rfl
        | true => rw [reservedFree, hB] at hok; simp at hok
      have hC : fields.any (fun kv => kv.1 == "type") = false := by
        cases hC : fields.any (fun kv => kv.1 == "type") with
        | false => rfl
        | true => rw [reservedFree, hC] at hok; simp at hok
      unfold topicType at ht
      have hmk : mkRecord env s.bag e =
          ("topic", .vstr e.topic) :: ("time_ns", .vint e.time) ::
          ("type", .vstr t) :: fields := by
        unfold mkRecord topicType
        simp only [ht, hd]
      simp [Reader.next, has_next, read_next, type_map,
            get_all_topics_and_types, hlt, he, ht, hd, hA, hB, hC, hmk]

/-- Draining the iterator with enough fuel returns exactly one record per
remaining well-formed entry, in order. -/
lemma drainAux_ok {Desc Msg : Type} (env : RosEnv Desc Msg) :
    ∀ (fuel : Nat) (s : ReaderState) (acc : List Record),
      (∀ e ∈ (filteredEntries s).drop s.pos, entryOK env s.bag e = true) →
      ((filteredEntries s).drop s.pos).length < fuel →
      (drainAux env fuel s acc).1 =
        .ok (acc.reverse ++
          ((filteredEntries s).drop s.pos).map (mkRecord env s.bag)) := by
  intro fuel
  induction fuel with
  | zero => intro s acc _ hf; exact absurd hf (Nat.not_lt_zero _)
  | succ fuel ih =>
    intro s acc hall hf
    cases hdrop : (filteredEntries s).drop s.pos with
    | nil =>
      have hlen : (filteredEntries s).length ≤ s.pos :=
        List.drop_eq_nil_iff.mp hdrop
      have hn : (has_next s).1 = false := by
        simp [has_next, Nat.not_lt_of_le hlen]
      simp only [drainAux, next_of_not_hasNext env s hn]
      simp [hdrop]
    | cons e rest =>
      have he : (filteredEntries s)[s.pos]? = some e := by
        have h1 := List.head?_drop (filteredEntries s) s.pos
        rw [hdrop] at h1; exact h1.symm
      have hok : entryOK env s.bag e = true :=
        hall e (by rw [hdrop]; exact List.mem_cons_self _ _)
      have hrest : (filteredEntries s).drop (s.pos + 1) = rest := by
        rw [← List.tail_drop, hdrop]
        rfl
      have hall1 : ∀ x ∈ (filteredEntries s).drop (s.pos + 1),
          entryOK env s.bag x = true := by
        intro x hx
        rw [hrest] at hx
        exact hall x (by rw [hdrop]; exact List.mem_cons_of_mem _ hx)
      have hf1 : ((filteredEntries s).drop (s.pos + 1)).length < fuel := by
        rw [hrest]
        rw [hdrop] at hf
        exact Nat.lt_of_succ_lt_succ hf
      have hih := ih { s with pos := s.pos + 1,
                              metadataQueries := s.metadataQueries + 1,
                              readCalls := s.readCalls + 2 }
        (mkRecord env s.bag e :: acc) hall1 hf1
      simp only [drainAux, next_of_entryOK env s e he hok]
      rw [hih]
      simp [hrest, hdrop]

/-- The record built for a well-formed entry carries the entry's topic
under the `topic` key. -/
lemma recordLookup_mkRecord_topic {Desc Msg : Type} (env : RosEnv Desc Msg)
    (bag : Bag) (e : Entry) (h : entryOK env bag e = true) :
    recordLookup (mkRecord env bag e) "topic" = some (.vstr e.topic) := by
  unfold entryOK at h
  cases ht : topicType bag e.topic with
  | none => rw [ht] at h; exact absurd h (by simp)
  | some t =>
    simp only [ht] at h
    cases hd : to_dict env.load env.deserialize_message
        env.message_to_ordereddict e.data (.str t) with
    | error err => simp only [hd] at h; exact absurd h (by simp)
    | ok fields =>
      unfold mkRecord
      simp only [ht, hd]
      simp [recordLookup]

/-- When `type_map[topic]` does not resolve the entry's topic,
`Reader.__next__` propagates the lookup failure with the cursor already
advanced. -/
lemma next_of_topic_unresolved {Desc Msg : Type} (env : RosEnv Desc Msg)
    (s : ReaderState) (e : Entry)
    (he : (filteredEntries s)[s.pos]? = some e)
    (ht : topicType s.bag e.topic = none) :
    Reader.next env s =
      (.error (.topicResolutionError e.topic), advanced s) := by
  have hlt : s.pos < (filteredEntries s).length := by
    by_contra hge
    rw [List.getElem?_eq_none (Nat.le_of_not_lt hge)] at he
    exact Option.noConfusion he
  unfold topicType at ht
  simp [Reader.next, has_next, read_next, type_map,
        get_all_topics_and_types, hlt, he, ht, advanced]

/-- When `message.to_dict` fails on the entry's payload,
`Reader.__next__` propagates the failure with the cursor already
advanced. -/
lemma next_of_to_dict_error {Desc Msg : Type} (env : RosEnv Desc Msg)
    (s : ReaderState) (e : Entry) (t : String) (err : MessageError)
    (he : (filteredEntries s)[s.pos]? = some e)
    (ht : topicType s.bag e.topic = some t)
    (hd : to_dict env.load env.deserialize_message
        env.message_to_ordereddict e.data (.str t) = .error err) :
    Reader.next env s = (.error (.messageError err), advanced s) := by
  have hlt : s.pos < (filteredEntries s).length := by
    by_contra hge
    rw [List.getElem?_eq_none (Nat.le_of_not_lt hge)] at he
    exact Option.noConfusion he
  unfold topicType at ht
  simp [Reader.next, has_next, read_next, type_map,
        get_all_topics_and_types, hlt, he, ht, hd, advanced]

/-- When a flattened field collides with a reserved key, the assertion
of `Reader.__next__` fails with the cursor already advanced. -/
lemma next_of_collision {Desc Msg : Type} (env : RosEnv Desc Msg)
    (s : ReaderState) (e : Entry) (t : String) (fields : FieldMap)
    (he : (filteredEntries s)[s.pos]? = some e)
    (ht : topicType s.bag e.topic = some t)
    (hd : to_dict env.load env.deserialize_message
        env.message_to_ordereddict e.data (.str t) = .ok fields)
    (hcol : reservedFree fields = false) :
    Reader.next env s = (.error .assertionError, advanced s) := by
  have hlt : s.pos < (filteredEntries s).length := by
    by_contra hge
    rw [List.getElem?_eq_none (Nat.le_of_not_lt hge)] at he
    exact Option.noConfusion he
  unfold topicType at ht
  cases hA : fields.any (fun kv => kv.1 == "topic") with
  | true =>
    simp [Reader.next, has_next, read_next, type_map,
          get_all_topics_and_types, hlt, he, ht, hd, hA, advanced]
  | false =>
    cases hB : fields.any (fun kv => kv.1 == "time_ns") with
    | true =>
      simp [Reader.next, has_next, read_next, type_map,
            get_all_topics_and_types, hlt, he, ht, hd, hA, hB, advanced]
    | false =>
      cases hC : fields.any (fun kv => kv.1 == "type") with
      | true =>
        simp [Reader.next, has_next, read_next, type_map,
              get_all_topics_and_types, hlt, he, ht, hd, hA, hB, hC,
              advanced]
      | false =>
        rw [reservedFree, hA, hB, hC] at hcol
        simp at hcol

/-- When the flattened fields avoid the reserved keys, `Reader.__next__`
yields the record with the three reserved keys in front of the fields. -/
lemma next_of_fields_free {Desc Msg : Type} (env : RosEnv Desc Msg)
    (s : ReaderState) (e : Entry) (t : String) (fields : FieldMap)
    (he : (filteredEntries s)[s.pos]? = some e)
    (ht : topicType s.bag e.topic = some t)
    (hd : to_dict env.load env.deserialize_message
        env.message_to_ordereddict e.data (.str t) = .ok fields)
    (hfree : reservedFree fields = true) :
    Reader.next env s =
      (.ok (("topic", .vstr e.topic) :: ("time_ns", .vint e.time) ::
            ("type", .vstr t) :: fields), advanced s) := by
  have hok : entryOK env s.bag e = true := by
    unfold entryOK
    simp only [ht, hd]
    exact hfree
  have hmk : mkRecord env s.bag e =
      ("topic", .vstr e.topic) :: ("time_ns", .vint e.time) ::
      ("type", .vstr t) :: fields := by
    unfold mkRecord
    simp only [ht, hd]
  rw [next_of_entryOK env s e he hok, hmk]
  rfl

/-- Claim C1: iterating a freshly opened recording of N entries with no
topic filter yields exactly N records, one per stored entry, in the
original write order, and each yielded record's `topic` key equals the
topic name of the corresponding stored entry.  The hypothesis states that
every entry is well formed for iteration (its topic resolves in the type
map, its payload deserializes, and no message field collides with a
reserved key); these are the conditions under which the full iteration
succeeds at all. -/
theorem reader_no_filter_yields_all_entries_in_order {Desc Msg : Type}
    (env : RosEnv Desc Msg) (bag : Bag)
    (hok : ∀ e ∈ bag.entries, entryOK env bag e = true) :
    (Reader.list env (Reader.init bag [])).1 =
      .ok (bag.entries.map (mkRecord env bag)) ∧
    (bag.entries.map (mkRecord env bag)).length = bag.entries.length ∧
    (bag.entries.map (mkRecord env bag)).map
        (fun r => recordLookup r "topic") =
      bag.entries.map (fun e => some (Value.vstr e.topic)) := by
  refine ⟨?_, by simp, ?_⟩
  · have h := drainAux_ok env
      ((filteredEntries (Reader.init bag [])).length + 1)
      (Reader.init bag []) [] (by exact hok) (by exact Nat.lt_succ_self _)
    rw [Reader.list, h]
    rfl
  · rw [List.map_map]
    refine List.map_congr_left ?_
    intro e he
    exact recordLookup_mkRecord_topic env bag e (hok e he)

/-- Witness for C1 on the concrete two-entry sample bag. -/
theorem reader_no_filter_yields_all_entries_in_order_witness :
    (∀ e ∈ sampleBag.entries, entryOK sampleEnv sampleBag e = true) ∧
    ((Reader.list sampleEnv (Reader.init sampleBag [])).1 =
        .ok (sampleBag.entries.map (mkRecord sampleEnv sampleBag)) ∧
      (sampleBag.entries.map (mkRecord sampleEnv sampleBag)).length =
        sampleBag.entries.length ∧
      (sampleBag.entries.map (mkRecord sampleEnv sampleBag)).map
          (fun r => recordLookup r "topic") =
        sampleBag.entries.map (fun e => some (Value.vstr e.topic))) :=
  ⟨by decide,
   reader_no_filter_yields_all_entries_in_order sampleEnv sampleBag
     (by decide)⟩

/-- Claim C2: every record produced by one iteration step is an ordered
mapping whose first three keys are, in order, `topic` (the entry's topic
name), `time_ns` (the entry's timestamp), and `type` (the topic's message
type name), followed by exactly the flattened fields that the
deserializer extracted from the entry's payload. -/
theorem next_record_shape {Desc Msg : Type} (env : RosEnv Desc Msg)
    (s : ReaderState) (r : Record)
    (h : (Reader.next env s).1 = .ok r) :
    ∃ e t fields,
      (filteredEntries s)[s.pos]? = some e ∧
      topicType s.bag e.topic = some t ∧
      to_dict env.load env.deserialize_message env.message_to_ordereddict
        e.data (.str t) = .ok fields ∧
      r = ("topic", .vstr e.topic) :: ("time_ns", .vint e.time) ::
          ("type", .vstr t) :: fields := by
  by_cases hn : (has_next s).1 = false
  · rw [next_of_not_hasNext env s hn] at h
    exact absurd h (by simp)
  · have hlt : s.pos < (filteredEntries s).length := by
      simpa [has_next] using hn
    obtain ⟨e, he⟩ : ∃ e, (filteredEntries s)[s.pos]? = some e :=
      ⟨_, List.getElem?_eq_getElem hlt⟩
    cases ht : topicType s.bag e.topic with
    | none =>
      rw [next_of_topic_unresolved env s e he ht] at h
      exact absurd h (by simp)
    | some t =>
      cases hd : to_dict env.load env.deserialize_message
          env.message_to_ordereddict e.data (.str t) with
      | error err =>
        rw [next_of_to_dict_error env s e t err he ht hd] at h
        exact absurd h (by simp)
      | ok fields =>
        cases hfree : reservedFree fields with
        | false =>
          rw [next_of_collision env s e t fields he ht hd hfree] at h
          exact absurd h (by simp)
        | true =>
          rw [next_of_fields_free env s e t fields he ht hd hfree] at h
          simp only at h
          exact ⟨e, t, fields, he, ht, hd,
            (StepResult.ok.injEq _ _).mp h.symm⟩

/-- Witness for C2 on the first record of the sample bag. -/
theorem next_record_shape_witness :
    (Reader.next sampleEnv (Reader.init sampleBag [])).1 =
      .ok [("topic", Value.vstr "test_topic"),
           ("time_ns", Value.vint 100),
           ("type", Value.vstr "example_interfaces/msg/String"),
           ("data", Value.vstr "Hello World!")] ∧
    (∃ e t fields,
      (filteredEntries
        (Reader.init sampleBag []))[(Reader.init sampleBag []).pos]?
        = some e ∧
      topicType (Reader.init sampleBag []).bag e.topic = some t ∧
      to_dict sampleEnv.load sampleEnv.deserialize_message
        sampleEnv.message_to_ordereddict e.data (.str t) = .ok fields ∧
      [("topic", Value.vstr "test_topic"),
       ("time_ns", Value.vint 100),
       ("type", Value.vstr "example_interfaces/msg/String"),
       ("data", Value.vstr "Hello World!")] =
        ("topic", Value.vstr e.topic) :: ("time_ns", Value.vint e.time) ::
        ("type", Value.vstr t) :: fields) :=
  ⟨rfl, next_record_shape sampleEnv (Reader.init sampleBag []) _ rfl⟩

/-- Claim C3: when the deserialized field mapping of the entry at the
cursor contains any reserved key, the iteration step fails with the
assertion (modelled as the distinguished non-recoverable
`StepError.assertionError`) and never yields a record, so no colliding
field is silently renamed, dropped or overwritten; when there is no
collision, the assertion branch is unreachable. -/
theorem reserved_key_collision_asserts {Desc Msg : Type}
    (env : RosEnv Desc Msg) (s : ReaderState) (e : Entry) (t : String)
    (fields : FieldMap)
    (he : (filteredEntries s)[s.pos]? = some e)
    (ht : topicType s.bag e.topic = some t)
    (hd : to_dict env.load env.deserialize_message
        env.message_to_ordereddict e.data (.str t) = .ok fields) :
    (reservedFree fields = false →
      (Reader.next env s).1 = .error .assertionError ∧
      ∀ r : Record, (Reader.next env s).1 ≠ .ok r) ∧
    (reservedFree fields = true →
      (Reader.next env s).1 ≠ .error .assertionError) := by
  constructor
  · intro hcol
    rw [next_of_collision env s e t fields he ht hd hcol]
    exact ⟨rfl, fun r => by simp⟩
  · intro hfree
    rw [next_of_fields_free env s e t fields he ht hd hfree]
    simp

/-- Witness for C3 with a flattener that emits a field named `topic`. -/
theorem reserved_key_collision_asserts_witness :
    (filteredEntries
      (Reader.init sampleBag []))[(Reader.init sampleBag []).pos]? =
      some { topic := "test_topic", data := [1, 2], time := 100 } ∧
    topicType (Reader.init sampleBag []).bag "test_topic" =
      some "example_interfaces/msg/String" ∧
    to_dict collidingEnv.load collidingEnv.deserialize_message
      collidingEnv.message_to_ordereddict [1, 2]
      (.str "example_interfaces/msg/String") =
      .ok [("topic", Value.vstr "oops")] ∧
    ((reservedFree [("topic", Value.vstr "oops")] = false →
      (Reader.next collidingEnv (Reader.init sampleBag [])).1 =
        .error .assertionError ∧
      ∀ r : Record,
        (Reader.next collidingEnv (Reader.init sampleBag [])).1 ≠
          .ok r) ∧
     (reservedFree [("topic", Value.vstr "oops")] = true →
      (Reader.next collidingEnv (Reader.init sampleBag [])).1 ≠
        .error .assertionError)) :=
  ⟨rfl, rfl, rfl,
   reserved_key_collision_asserts collidingEnv (Reader.init sampleBag [])
     { topic := "test_topic", data := [1, 2], time := 100 }
     "example_interfaces/msg/String" [("topic", Value.vstr "oops")]
     rfl rfl rfl⟩

/-- Counterexample to claim C4 as stated: on an open recording that
drains to an empty record list, the second access to `records` queries
the cursor again (the `readCalls` instrumentation counter rises from 1
to 2), because `if not getattr(self, '_records', None)` treats the
cached empty list as absent. -/
theorem records_empty_rereads_counterexample :
    (Reader.records sampleEnv (Reader.openState emptyBag)).1 = .ok [] ∧
    (Reader.records sampleEnv (Reader.openState emptyBag)).2.readCalls
      = 1 ∧
    (Reader.records sampleEnv
        (Reader.records sampleEnv
          (Reader.openState emptyBag)).2).2.readCalls = 2 :=
  ⟨rfl, by decide, by decide⟩

/-- Claim C4 amended: the first access to `records` drains the iterator
and caches the list; when the drained list is non-empty, every
subsequent access returns the same cached list content with the state —
including both resource call counters — unchanged, so no further reads
of the underlying resource happen.  (As stated the claim fails when the
drain yields an empty list: the falsy cache test re-runs the drain on
each access, see the counterexample.) -/
theorem records_cached_after_nonempty_first_access {Desc Msg : Type}
    (env : RosEnv Desc Msg) (s : ReaderState) (l : List Record)
    (s1 : ReaderState)
    (h : Reader.records env s = (.ok l, s1)) (hne : l ≠ []) :
    Reader.records env s1 = (.ok l, s1) ∧
    (Reader.records env s1).2.readCalls = s1.readCalls ∧
    (Reader.records env s1).2.metadataQueries = s1.metadataQueries := by
  have hmain : Reader.records env s1 = (.ok l, s1) := by
    unfold Reader.records at h
    rcases hc : s.records_cache with _ | ⟨_ | ⟨r, rs⟩⟩
    · rw [hc] at h
      cases hl : Reader.list env s with
      | mk res s2 =>
        rw [hl] at h
        cases res with
        | error e2 => simp at h
        | ok l2 =>
          simp only [Prod.mk.injEq] at h
          obtain ⟨h1, h2⟩ := h
          cases h1
          cases l with
          | nil => exact absurd rfl hne
          | cons r rs =>
            rw [Reader.records, ← h2]
    · rw [hc] at h
      cases hl : Reader.list env s with
      | mk res s2 =>
        rw [hl] at h
        cases res with
        | error e2 => simp at h
        | ok l2 =>
          simp only [Prod.mk.injEq] at h
          obtain ⟨h1, h2⟩ := h
          cases h1
          cases l with
          | nil => exact absurd rfl hne
          | cons r rs =>
            rw [Reader.records, ← h2]
    · rw [hc] at h
      simp only [Prod.mk.injEq] at h
      obtain ⟨h1, h2⟩ := h
      cases h1
      rw [Reader.records, ← h2, hc]
  exact ⟨hmain, by rw [hmain], by rw [hmain]⟩

/-- Witness for the amended C4 on the non-empty sample bag. -/
theorem records_cached_after_nonempty_first_access_witness :
    Reader.records sampleEnv (Reader.openState sampleBag) =
      (.ok sampleRecords,
       (Reader.records sampleEnv (Reader.openState sampleBag)).2) ∧
    sampleRecords ≠ [] ∧
    (Reader.records sampleEnv
        ((Reader.records sampleEnv (Reader.openState sampleBag)).2) =
      (.ok sampleRecords,
       (Reader.records sampleEnv (Reader.openState sampleBag)).2) ∧
     (Reader.records sampleEnv
        ((Reader.records sampleEnv
          (Reader.openState sampleBag)).2)).2.readCalls =
       (Reader.records sampleEnv
         (Reader.openState sampleBag)).2.readCalls ∧
     (Reader.records sampleEnv
        ((Reader.records sampleEnv
          (Reader.openState sampleBag)).2)).2.metadataQueries =
       (Reader.records sampleEnv
         (Reader.openState sampleBag)).2.metadataQueries) :=
  ⟨rfl, by decide,
   records_cached_after_nonempty_first_access sampleEnv
     (Reader.openState sampleBag) sampleRecords
     (Reader.records sampleEnv (Reader.openState sampleBag)).2
     rfl (by decide)⟩

/-- Counterexample to claim C5 as stated: the topic-to-type mapping is
not fetched once per open; every access to `type_map` queries
`get_all_topics_and_types` again (the `metadataQueries` instrumentation
counter rises 1, 2, ...), and iterating the two-entry sample bag performs
one further metadata query per yielded record. -/
theorem type_map_requery_counterexample :
    (type_map (Reader.openState sampleBag)).2.metadataQueries = 1 ∧
    (type_map (type_map (Reader.openState sampleBag)).2).2.metadataQueries
      = 2 ∧
    (Reader.next sampleEnv (Reader.init sampleBag [])).2.metadataQueries
      = 1 ∧
    (Reader.list sampleEnv (Reader.init sampleBag [])).2.metadataQueries
      = 2 :=
  ⟨by decide, by decide, by decide, by decide⟩

/-- Claim C5 amended: `type_map` is computed fresh on each access — each
access performs exactly one query of the underlying topic-metadata
operation and returns the mapping built from the metadata, with nothing
cached across accesses (so the per-record lookup during iteration
re-queries the operation on every record). -/
theorem type_map_queries_once_per_access (s : ReaderState) :
    type_map s = (typeMapList s.bag.topicData,
      { s with metadataQueries := s.metadataQueries + 1 }) := rfl

/-- Claim C6: constructing a `Reader` with an empty topic list (or never
calling `set_filter`) installs no topic filter, so iteration traverses
the entries of all topics present in the recording. -/
theorem empty_topics_installs_no_filter (bag : Bag) :
    (Reader.init bag []).filter = none ∧
    (Reader.openState bag).filter = none ∧
    filteredEntries (Reader.init bag []) = bag.entries :=
  ⟨rfl, rfl, rfl⟩

/-- Claim C7: a message specification string that does not split into
exactly three delimiter-separated components makes
`string_to_message_type` fail with a `SpecificationFormatError`, and
since the theorem holds for every loader — including one that would
succeed on anything — the failure occurs before any attempt to load the
named type. -/
theorem bad_specification_format_error {Desc : Type}
    (load : String → String → String → Option Desc)
    (specification : String)
    (h : (pySplit '/' specification).length ≠ 3) :
    string_to_message_type load specification =
      .error .specificationFormatError := by
  unfold string_to_message_type
  rcases hs : pySplit '/' specification with _ | ⟨a, _ | ⟨b, _ | ⟨c, _ | ⟨d, t⟩⟩⟩⟩
  · rfl
  · rfl
  · rfl
  · exact absurd (by rw [hs]; rfl) h
  · rfl

/-- Witness for C7 on the literal specification `"bad/spec"`. -/
theorem bad_specification_format_error_witness :
    (pySplit '/' "bad/spec").length ≠ 3 ∧
    string_to_message_type (fun _ _ _ => some ()) "bad/spec" =
      .error .specificationFormatError :=
  ⟨by decide, bad_specification_format_error (fun _ _ _ => some ())
    "bad/spec" (by decide)⟩

/-- Claim C8: when the cursor reports no further entries, every later
call of `Reader.__next__` — the first one and every one after it —
signals `StopIteration` (normal end of sequence), never one of the error
conditions. -/
theorem exhausted_reader_stop_iteration {Desc Msg : Type}
    (env : RosEnv Desc Msg) (s : ReaderState) (n : Nat)
    (h : (has_next s).1 = false) :
    (Reader.next env (skipNext env n s)).1 = .stopIteration := by
  induction n generalizing s with
  | zero =>
    simp only [skipNext]
    rw [next_of_not_hasNext env s h]
  | succ n ih =>
    simp only [skipNext]
    rw [next_of_not_hasNext env s h]
    exact ih _ (by simpa [has_next] using h)

/-- Witness for C8: the fourth read after exhaustion of the empty bag
still signals end of sequence. -/
theorem exhausted_reader_stop_iteration_witness :
    (has_next (Reader.init emptyBag [])).1 = false ∧
    (Reader.next sampleEnv
      (skipNext sampleEnv 3 (Reader.init emptyBag []))).1 =
      .stopIteration :=
  ⟨by decide,
   exhausted_reader_stop_iteration sampleEnv (Reader.init emptyBag []) 3
     (by decide)⟩

/-- Claim C9: whenever an iteration step fails although the cursor had
entries remaining, the cursor has already advanced past the failing
entry (`read_next` ran before the failing stage), the entry sequence is
unchanged, and the next step therefore operates on the following
entry. -/
theorem failing_step_advances_cursor {Desc Msg : Type}
    (env : RosEnv Desc Msg) (s : ReaderState) (err : StepError)
    (hn : (has_next s).1 = true)
    (h : (Reader.next env s).1 = .error err) :
    (Reader.next env s).2.pos = s.pos + 1 ∧
    filteredEntries (Reader.next env s).2 = filteredEntries s := by
  have hlt : s.pos < (filteredEntries s).length := by
    simpa [has_next] using hn
  obtain ⟨e, he⟩ : ∃ e, (filteredEntries s)[s.pos]? = some e :=
    ⟨_, List.getElem?_eq_getElem hlt⟩
  cases ht : topicType s.bag e.topic with
  | none =>
    rw [next_of_topic_unresolved env s e he ht]
    exact ⟨rfl, by simp [advanced]⟩
  | some t =>
    cases hd : to_dict env.load env.deserialize_message
        env.message_to_ordereddict e.data (.str t) with
    | error merr =>
      rw [next_of_to_dict_error env s e t merr he ht hd]
      exact ⟨rfl, by simp [advanced]⟩
    | ok fields =>
      cases hfree : reservedFree fields with
      | false =>
        rw [next_of_collision env s e t fields he ht hd hfree]
        exact ⟨rfl, by simp [advanced]⟩
      | true =>
        rw [next_of_fields_free env s e t fields he ht hd hfree] at h
        exact absurd h (by simp)

/-- Witness for C9 on a bag whose single entry has an unresolvable
topic. -/
theorem failing_step_advances_cursor_witness :
    (has_next (Reader.init mysteryBag [])).1 = true ∧
    (Reader.next sampleEnv (Reader.init mysteryBag [])).1 =
      .error (.topicResolutionError "mystery") ∧
    ((Reader.next sampleEnv (Reader.init mysteryBag [])).2.pos =
      (Reader.init mysteryBag []).pos + 1 ∧
     filteredEntries
        (Reader.next sampleEnv (Reader.init mysteryBag [])).2 =
       filteredEntries (Reader.init mysteryBag [])) :=
  ⟨by decide, rfl,
   failing_step_advances_cursor sampleEnv (Reader.init mysteryBag [])
     (.topicResolutionError "mystery") (by decide) rfl⟩

/-- Claim C10: when the `message_type` argument of `deserialize` or
`to_dict` is already a type descriptor, the descriptor is used as is:
the result does not depend on the loader (no specification splitting,
no dynamic module loading), and it equals deserializing the payload
directly with that descriptor. -/
theorem descriptor_used_as_is {Desc Msg : Type}
    (load load' : String → String → String → Option Desc)
    (dm : Payload → Desc → Option Msg) (mto : Msg → FieldMap)
    (data : Payload) (d : Desc) :
    deserialize load dm data (.descriptor d) =
      deserialize load' dm data (.descriptor d) ∧
    deserialize load dm data (.descriptor d) =
      (match dm data d with
       | some m => .ok m
       | none => .error .deserializationError) ∧
    to_dict load dm mto data (.descriptor d) =
      (deserialize load' dm data (.descriptor d)).map mto :=
  ⟨rfl, rfl, rfl⟩

end NmlBag
